import Mathlib

/-!
Verification of `colab_utils.py`: a shallow embedding of the command runner
(`runCmd`, `runCmdList`), the manifest-driven installer (`pip_install`,
`pip_install_from_conda_yaml`), the repository flattener (`clone_repo`) and
the conditional bootstrap (`install_rdkit`), together with theorems about
the properties they are documented to have.

Modelling conventions:
- A spawned child process is abstracted by `ProcBehavior`: the list of raw
  stdout lines it writes (without trailing newlines), its final exit code,
  and `exitedAt t`, telling whether `process.poll()` reports an exit code at
  the time of the t-th `readline` call.  `readline` past the written lines
  returns the empty string (EOF), and at EOF the process is taken to have
  exited (the Python loop would spin until `poll()` is non-None).
- Printing is modelled by returning the list of printed lines.
- Python exceptions (`KeyError`, `AssertionError`) are modelled with
  `Except PyErr`.
- The filesystem view needed by `clone_repo` is a list of entry names of the
  working directory and of the cloned directory.
-/

namespace ColabUtils

/-- Abstraction of a spawned child process: the stdout lines it produces (in
order, already split at newlines, without the trailing newline character),
its exit code, and whether `poll()` sees it as exited at the time of the t-th
`readline`. -/
structure ProcBehavior where
  outLines : List String
  exitCode : Int
  exitedAt : Nat → Bool

/-- The whitespace characters removed by Python's `str.strip()` (the ASCII
ones: space, tab, newline, carriage return, vertical tab, form feed). -/
def isSpaceChar (c : Char) : Bool :=
  c == ' ' || c == '\t' || c == '\n' || c == '\r' ||
  c == Char.ofNat 11 || c == Char.ofNat 12

/-- Python `s.strip()`: remove leading and trailing whitespace. -/
def pyStrip (s : String) : String :=
  ⟨((s.data.dropWhile isSpaceChar).reverse.dropWhile isSpaceChar).reverse⟩

/-- Helper for `pySplit`: split a character list at a separator, `acc` being
the current (reversed) chunk. -/
def splitCharAux (sep : Char) : List Char → List Char → List (List Char)
  | [], acc => [acc.reverse]
  | c :: cs, acc =>
    if c == sep then acc.reverse :: splitCharAux sep cs []
    else splitCharAux sep cs (c :: acc)

/-- Python `s.split(sep)` for a one-character separator: always a non-empty
list of chunks. -/
def pySplit (s : String) (sep : Char) : List String :=
  (splitCharAux sep s.data []).map (fun l => String.mk l)

/-- Helper for `pyReplace`, with fuel (the input's length suffices): replace
every non-overlapping occurrence of `pat`, left to right. -/
def replaceAux (pat repl : List Char) : Nat → List Char → List Char
  | 0, l => l
  | _ + 1, [] => []
  | fuel + 1, c :: cs =>
    if pat.isPrefixOf (c :: cs) then
      repl ++ replaceAux pat repl fuel (List.drop (pat.length - 1) cs)
    else
      c :: replaceAux pat repl fuel cs

/-- Python `s.replace(pat, repl)` for non-empty `pat`. -/
def pyReplace (s pat repl : String) : String :=
  ⟨replaceAux pat.data repl.data s.data.length s.data⟩

/-- Whether a file name starts with a dot (hidden from glob's `*`). -/
def startsWithDot (n : String) : Bool :=
  match n.data with
  | [] => false
  | c :: _ => c == '.'

/-- `CONDA_URL` from the source. -/
def CONDA_URL : String :=
  "https://repo.continuum.io/miniconda/Miniconda3-latest-Linux-x86_64.sh"

/-- `CONDA_DIR` from the source. -/
def CONDA_DIR : String := "/usr/local/lib/python3.7/site-packages/"

/-- The `while True` read loop of `runCmd`:
```
while True:
    output = process.stdout.readline().decode('utf-8').strip()
    if output == '' and process.poll() is not None:
        break
    if output and verbose:
        print(output)
```
`pending` is the not-yet-read stdout; `t` counts `readline` calls so far.
Returns the lines printed by the loop and the number of `readline` calls it
performed.  In the EOF case (`pending = []`) the read returns `''` and, the
process having exited, the loop breaks after that one read. -/
def readLoop (pending : List String) (t : Nat) (exitedAt : Nat → Bool)
    (verbose : Bool) : List String × Nat :=
  match pending with
  | [] => ([], 1)
  | l :: rest =>
    let output := pyStrip l
    if output == "" && exitedAt t then
      ([], 1)
    else
      let r := readLoop rest (t + 1) exitedAt verbose
      ((if output != "" && verbose then [output] else []) ++ r.1, r.2 + 1)

/-- The error notice printed by `runCmd` when the exit code is non-zero:
`print(f'\tERROR ({return_code}) running command!')`. -/
def errorNotice (return_code : Int) : String :=
  s!"\tERROR ({return_code}) running command!"

/-- `runCmd(cmd, ...)`: prints the `CMD:` header, drains the child's stdout
through `readLoop`, prints the error notice on a non-zero exit code, and
returns the exit code.  The result is `(printed lines, return code)`.  The
`split`/`shell` flags only affect how the OS receives the command and are
absorbed into the `proc` abstraction. -/
def runCmd (cmd : String) (proc : ProcBehavior) (verbose : Bool) :
    List String × Int :=
  let echoed := (readLoop proc.outLines 0 proc.exitedAt verbose).1
  let tail := if proc.exitCode == 0 then [] else [errorNotice proc.exitCode]
  (s!"CMD: {cmd}" :: (echoed ++ tail), proc.exitCode)

/-- `runCmdList(cmd_list)`: `list(map(runCmd, cmd_list))`.  `env` supplies
each spawned command's behavior; `runCmd` is called with its default flags
(`verbose=True`).  The result is the list of each call's `(printed, code)`. -/
def runCmdList (env : String → ProcBehavior) (cmd_list : List String) :
    List (List String × Int) :=
  cmd_list.map (fun c => runCmd c (env c) true)

/-- Python exceptions that `pip_install_from_conda_yaml` can raise: a
`KeyError` from `item['pip']` on a mapping without that key, and an
`AssertionError` from a failed `assert`, carrying its message. -/
inductive PyErr where
  | keyError : String → PyErr
  | assertionError : String → PyErr
deriving DecidableEq, Repr

instance {ε α : Type} [DecidableEq ε] [DecidableEq α] :
    DecidableEq (Except ε α) := fun a b =>
  match a, b with
  | .ok x, .ok y =>
    if h : x = y then isTrue (h ▸ rfl)
    else isFalse (fun hh => h (Except.ok.inj hh))
  | .error x, .error y =>
    if h : x = y then isTrue (h ▸ rfl)
    else isFalse (fun hh => h (Except.error.inj hh))
  | .ok _, .error _ => isFalse (fun hh => Except.noConfusion hh)
  | .error _, .ok _ => isFalse (fun hh => Except.noConfusion hh)

/-- The YAML value found under a mapping's `pip` key: either YAML `null`
(Python `None`) or a list of package names. -/
inductive PipVal where
  | null : PipVal
  | pkgs : List String → PipVal
deriving DecidableEq, Repr

/-- One item of the manifest's `dependencies` list: a plain string (e.g.
`"numpy"`) or a mapping.  For a mapping, `DepItem.dict po` records what the
lookup `item['pip']` finds: `none` when the key is absent (the lookup raises
`KeyError`), `some v` when it is present with value `v`. -/
inductive DepItem where
  | str : String → DepItem
  | dict : Option PipVal → DepItem
deriving DecidableEq, Repr

/-- The parsed manifest (`yaml.load` result): `dependencies = none` models a
mapping without a `dependencies` key. -/
structure CondaConfig where
  dependencies : Option (List DepItem)
deriving DecidableEq, Repr

/-- `extra = '--upgrade --force-reinstall' if force else ''` from
`pip_install`. -/
def pipExtra (force : Bool) : String :=
  if force then "--upgrade --force-reinstall" else ""

/-- `pip_install(package_list, force)`: the list of commands handed to the
runner, one `pip install` per package, in list order.  (With `force=False`
the `extra` field is empty, so the command has a doubled space, exactly as
the f-string produces.) -/
def pip_install (package_list : List String) (force : Bool) : List String :=
  package_list.map (fun p => s!"pip install {pipExtra force} {p}")

/-- The `for item in config['dependencies']` loop of
`pip_install_from_conda_yaml`, threading the `pip_config` variable:
```
for item in config['dependencies']:
    if isinstance(item, dict) and item['pip'] is not None:
        pip_config = item['pip']
```
A mapping without a `pip` key makes `item['pip']` raise `KeyError('pip')`;
a mapping with `pip: null` is skipped; a mapping with a package list
overwrites `pip_config`. -/
def findPipConfig : List DepItem → Option (List String) →
    Except PyErr (Option (List String))
  | [], pip_config => .ok pip_config
  | .str _ :: rest, pip_config => findPipConfig rest pip_config
  | .dict none :: _, _ => .error (.keyError "pip")
  | .dict (some .null) :: rest, pip_config => findPipConfig rest pip_config
  | .dict (some (.pkgs l)) :: rest, _ => findPipConfig rest (some l)

/-- The pip package list an item contributes, if any: `some l` exactly for a
mapping entry `{pip: l}` with a list value. -/
def pipListOf : DepItem → Option (List String)
  | .dict (some (.pkgs l)) => some l
  | _ => none

/-- `pip_install_from_conda_yaml(filename, force)`, with the file already
parsed into `config`.  Returns the list of issued install commands, or the
exception that aborted the call (before any install command is issued). -/
def pip_install_from_conda_yaml (config : CondaConfig) (filename : String)
    (force : Bool) : Except PyErr (List String) :=
  match config.dependencies with
  | none => .error (.assertionError s!"{filename} is not a valid conda yaml")
  | some deps =>
    match findPipConfig deps none with
    | .error e => .error e
    | .ok none => .error (.assertionError s!"Did not find pip in {filename}")
    | .ok (some pip_config) => .ok (pip_install pip_config force)

/-- `repo_url.split('/')[-1].replace('.git', '')` from `clone_repo`.
`split('/')` on any string yields a non-empty list, so `[-1]` is total. -/
def repoDirOf (repo_url : String) : String :=
  pyReplace ((pySplit repo_url '/').getLastD "") ".git" ""

/-- `glob.glob(f'{repo_dir}/*')`: the entries of the directory whose names do
not start with a dot (glob's `*` never matches hidden names). -/
def globStar (entries : List String) : List String :=
  entries.filter (fun n => !(startsWithDot n))

/-- `clone_repo(repo_url)` over a name-level view of the filesystem:
`cwd` is the set of entry names in the working directory before the call and
`repoEntries` the top-level entry names the `git clone` creates inside
`repo_dir`.  The clone adds `repo_dir` to the working directory, each
non-hidden entry is moved into the working directory, and
`shutil.rmtree(repo_dir)` then deletes `repo_dir` with everything still
inside it.  Returns the working directory's entry names afterwards. -/
def clone_repo (repo_url : String) (repoEntries cwd : List String) :
    List String :=
  let repo_dir := repoDirOf repo_url
  let afterClone := cwd ++ [repo_dir]
  let afterMove := afterClone ++ globStar repoEntries
  afterMove.filter (fun n => n != repo_dir)

/-- `conda_sh = CONDA_URL.split('/')[-1]` from `install_rdkit`. -/
def conda_sh : String := (pySplit CONDA_URL '/').getLastD ""

/-- The `cmd_list` built by `install_rdkit`. -/
def rdkit_cmd_list : List String :=
  [s!"wget -c {CONDA_URL}",
   s!"chmod +x {conda_sh}",
   s!"bash ./{conda_sh} -b -f -p /usr/local",
   "conda install -q -y -c conda-forge rdkit",
   s!"rm -rf {conda_sh}"]

/-- `install_rdkit(force)`: the commands it hands to the runner, given the
ambient facts it consults (`IN_COLAB` and `os.path.exists(CONDA_DIR)`).
The guard is `if IN_COLAB and not os.path.exists(CONDA_DIR) and not force`. -/
def install_rdkit (in_colab conda_dir_exists force : Bool) : List String :=
  if in_colab && !conda_dir_exists && !force then rdkit_cmd_list else []

/-! ## Helper lemmas -/

/-- The read loop performs at least one `readline`. -/
theorem readLoop_count_pos (pending : List String) (t : Nat)
    (ea : Nat → Bool) (v : Bool) : 1 ≤ (readLoop pending t ea v).2 := by
  cases pending with
  | nil => exact Nat.le_refl 1
  | cons l rest =>
    simp only [readLoop]
    by_cases h : (pyStrip l == "" && ea t) = true
    · simp [h]
    · simp [h]

/-- With `verbose=False` the read loop prints nothing. -/
theorem readLoop_quiet (pending : List String) (t : Nat) (ea : Nat → Bool) :
    (readLoop pending t ea false).1 = [] := by
  induction pending generalizing t with
  | nil => rfl
  | cons l rest ih =>
    simp only [readLoop]
    by_cases h : (pyStrip l == "" && ea t) = true
    · simp [h]
    · simp [h, ih]

/-- With `verbose=True`, as long as no line that strips to empty is read
while the process is already exited, the loop prints exactly the stripped
forms of the non-empty lines, in order. -/
theorem readLoop_echo (pending : List String) (t : Nat) (ea : Nat → Bool)
    (h : ∀ i, i < pending.length →
      pyStrip (pending.getD i "") = "" → ea (t + i) = false) :
    (readLoop pending t ea true).1 =
      (pending.map pyStrip).filter (fun s => s != "") := by
  induction pending generalizing t with
  | nil => rfl
  | cons l rest ih =>
    have hrest : ∀ i, i < rest.length →
        pyStrip (rest.getD i "") = "" → ea (t + 1 + i) = false := by
      intro i hi he
      have := h (i + 1) (by simpa using Nat.succ_lt_succ hi) (by simpa using he)
      simpa [Nat.add_assoc, Nat.add_comm 1 i] using this
    simp only [readLoop]
    by_cases hl : pyStrip l = ""
    · have hea : ea t = false := by
        have := h 0 (Nat.succ_pos _) (by simpa using hl)
        simpa using this
      simp [hl, hea, ih (t + 1) hrest]
    · have hbeq : (pyStrip l == "") = false := beq_eq_false_iff_ne.mpr hl
      simp [hbeq, ih (t + 1) hrest, hl]

/-- The loop of `pip_install_from_conda_yaml`, when every mapping entry has
a `pip` key, computes the last pip list seen (starting from `acc`). -/
theorem findPipConfig_eq (deps : List DepItem)
    (acc : Option (List String))
    (h : ∀ it ∈ deps, it ≠ DepItem.dict none) :
    findPipConfig deps acc =
      .ok (List.foldl (fun _ x => some x) acc (deps.filterMap pipListOf)) := by
  induction deps generalizing acc with
  | nil => rfl
  | cons it rest ih =>
    have hrest : ∀ x ∈ rest, x ≠ DepItem.dict none := by
      intro x hx
      exact h x (List.mem_cons_of_mem _ hx)
    match it with
    | .str s =>
      simpa [findPipConfig, List.filterMap_cons, pipListOf] using ih acc hrest
    | .dict none =>
      exact absurd rfl (h (DepItem.dict none) (List.mem_cons_self _ _))
    | .dict (some .null) =>
      simpa [findPipConfig, List.filterMap_cons, pipListOf] using ih acc hrest
    | .dict (some (.pkgs l)) =>
      simpa [findPipConfig, List.filterMap_cons, pipListOf]
        using ih (some l) hrest

/-- Folding "keep the newest" over a non-empty list yields its last element. -/
theorem foldl_keep_last (ls : List (List String))
    (acc : Option (List String)) (h : ls ≠ []) :
    List.foldl (fun _ x => some x) acc ls = ls.getLast? := by
  induction ls generalizing acc with
  | nil => exact absurd rfl h
  | cons x rest ih =>
    cases rest with
    | nil => rfl
    | cons y ys =>
      rw [List.getLast?_cons_cons]
      exact ih (some x) (by simp)

/-- When no dependency item carries a pip package list, the scan either ends
with `pip_config` unchanged or raises `KeyError('pip')`. -/
theorem findPipConfig_no_pip (deps : List DepItem)
    (acc : Option (List String)) (h : ∀ it ∈ deps, pipListOf it = none) :
    findPipConfig deps acc = .ok acc ∨
      findPipConfig deps acc = .error (.keyError "pip") := by
  induction deps generalizing acc with
  | nil => exact Or.inl rfl
  | cons it rest ih =>
    have hrest : ∀ x ∈ rest, pipListOf x = none := by
      intro x hx
      exact h x (List.mem_cons_of_mem _ hx)
    match it with
    | .str s => exact ih acc hrest
    | .dict none => exact Or.inr rfl
    | .dict (some .null) => exact ih acc hrest
    | .dict (some (.pkgs l)) =>
      have := h (DepItem.dict (some (.pkgs l))) (List.mem_cons_self _ _)
      simp [pipListOf] at this

/-! ## Claim theorems -/

set_option maxRecDepth 4000

/-- C1 counterexample: the claim "for a command exiting with status 0 the
runner echoes every line the process wrote to standard output" is false.
A process that writes the lines `""` and `"b"` and exits with status 0 has
neither line echoed: the empty line is dropped (it strips to `''` and
`poll()` already reports the exit), which also breaks the loop before `"b"`
is ever read. -/
theorem runCmd_echoes_every_line_cex :
    (⟨["", "b"], 0, fun _ => true⟩ : ProcBehavior).exitCode = 0 ∧
    "b" ∉ (runCmd "cat log.txt" ⟨["", "b"], 0, fun _ => true⟩ true).1 ∧
    "" ∉ (runCmd "cat log.txt" ⟨["", "b"], 0, fun _ => true⟩ true).1 := by
  decide

/-- C1 (amended): for a command exiting with status 0, the runner returns 0
and echoes the stripped form of every line that is non-empty after
stripping, in the order produced — provided no line stripping to empty is
read after the process has already exited (reading stops at such a line). -/
theorem runCmd_success_echo (cmd : String) (proc : ProcBehavior)
    (hcode : proc.exitCode = 0)
    (hrace : ∀ i, i < proc.outLines.length →
      pyStrip (proc.outLines.getD i "") = "" → proc.exitedAt i = false) :
    runCmd cmd proc true =
      (s!"CMD: {cmd}" ::
        (proc.outLines.map pyStrip).filter (fun s => s != ""), 0) := by
  have hrace0 : ∀ i, i < proc.outLines.length →
      pyStrip (proc.outLines.getD i "") = "" → proc.exitedAt (0 + i) = false := by
    intro i hi he
    simpa [Nat.zero_add] using hrace i hi he
  simp [runCmd, hcode, readLoop_echo proc.outLines 0 proc.exitedAt hrace0]

/-- Witness for C1's amended theorem at a concrete process: output lines
`"a"`, `"  b  "`, `""`, exit code 0, the process exiting at the third read. -/
theorem runCmd_success_echo_witness :
    runCmd "ls" ⟨["a", "  b  ", ""], 0, fun t => decide (3 ≤ t)⟩ true =
      (["CMD: ls", "a", "b"], 0) :=
  runCmd_success_echo "ls" ⟨["a", "  b  ", ""], 0, fun t => decide (3 ≤ t)⟩
    rfl (by decide)

/-- C2: for a command exiting with non-zero status N, the runner returns N
and prints the error notice, which contains N; the call never raises (it is
a total function into printed lines and a return code). -/
theorem runCmd_failure_notice (cmd : String) (proc : ProcBehavior)
    (verbose : Bool) (h : proc.exitCode ≠ 0) :
    (runCmd cmd proc verbose).2 = proc.exitCode ∧
    errorNotice proc.exitCode ∈ (runCmd cmd proc verbose).1 ∧
    errorNotice proc.exitCode =
      "\tERROR (" ++ toString proc.exitCode ++ ") running command!" := by
  refine ⟨rfl, ?_, rfl⟩
  have hbeq : (proc.exitCode == 0) = false := beq_eq_false_iff_ne.mpr h
  simp [runCmd, hbeq]

/-- Witness for C2 at a concrete process exiting with status 2. -/
theorem runCmd_failure_notice_witness :
    (runCmd "make" ⟨["oops"], 2, fun _ => true⟩ true).2 = 2 ∧
    errorNotice 2 ∈ (runCmd "make" ⟨["oops"], 2, fun _ => true⟩ true).1 ∧
    errorNotice 2 = "\tERROR (" ++ toString (2 : Int) ++ ") running command!" :=
  runCmd_failure_notice "make" ⟨["oops"], 2, fun _ => true⟩ true (by decide)

/-- C3: running the command list `[a, b, c]` calls the runner once per
command, in list order, whatever each spawned process does (in particular
whatever its exit status is), with no aggregation beyond collecting each
call's output: the observable `CMD:` headers appear in list order. -/
theorem runCmdList_runs_each_in_order (env : String → ProcBehavior)
    (a b c : String) :
    runCmdList env [a, b, c] =
      [runCmd a (env a) true, runCmd b (env b) true, runCmd c (env c) true] ∧
    (runCmdList env [a, b, c]).map (fun r => r.1.headD "") =
      [s!"CMD: {a}", s!"CMD: {b}", s!"CMD: {c}"] := by
  exact ⟨rfl, by simp [runCmdList, runCmd]⟩

/-- Plain string dependencies contribute no pip package list. -/
theorem filterMap_pipListOf_str (l : List String) :
    List.filterMap (pipListOf ∘ DepItem.str) l = [] := by
  induction l with
  | nil => rfl
  | cons s rest ih => simp [List.filterMap_cons, pipListOf, ih, Function.comp]

/-- C4: for a manifest whose dependency list has exactly one mapping entry,
`{pip: pkgs}`, the routine issues exactly one install command per listed
package, in manifest order. -/
theorem pip_yaml_installs_each_package (pre post pkgs : List String)
    (filename : String) (force : Bool) :
    pip_install_from_conda_yaml
      ⟨some (pre.map DepItem.str ++
        DepItem.dict (some (PipVal.pkgs pkgs)) :: post.map DepItem.str)⟩
      filename force = .ok (pip_install pkgs force) ∧
    (pip_install pkgs force).length = pkgs.length ∧
    pip_install pkgs force =
      pkgs.map (fun p => s!"pip install {pipExtra force} {p}") := by
  refine ⟨?_, by simp [pip_install], rfl⟩
  have hclean : ∀ it ∈ pre.map DepItem.str ++
      DepItem.dict (some (PipVal.pkgs pkgs)) :: post.map DepItem.str,
      it ≠ DepItem.dict none := by
    intro it hit
    rcases List.mem_append.mp hit with hpre | hrest
    · obtain ⟨s, _, rfl⟩ := List.mem_map.mp hpre
      simp
    · rcases List.mem_cons.mp hrest with rfl | hpost
      · simp
      · obtain ⟨s, _, rfl⟩ := List.mem_map.mp hpost
        simp

  have hlists : (pre.map DepItem.str ++
      DepItem.dict (some (PipVal.pkgs pkgs)) :: post.map DepItem.str).filterMap
        pipListOf = [pkgs] := by
    simp [List.filterMap_append, List.filterMap_cons, pipListOf,
      filterMap_pipListOf_str]
  simp [pip_install_from_conda_yaml, findPipConfig_eq _ none hclean, hlists]

/-- C5 counterexample: the claim that a manifest with no pip entry under
`dependencies` makes the routine abort with the descriptive assertion
message is false at a manifest whose dependency list holds one mapping
without a `pip` key (e.g. `{conda: [...]}`): the lookup `item['pip']` raises
`KeyError('pip')` before the assertion is ever reached. -/
theorem pip_yaml_no_pip_assertion_cex :
    pip_install_from_conda_yaml ⟨some [DepItem.dict none]⟩
      "environment.yml" false = .error (.keyError "pip") ∧
    ¬ ∃ msg, pip_install_from_conda_yaml ⟨some [DepItem.dict none]⟩
      "environment.yml" false = .error (.assertionError msg) := by
  refine ⟨rfl, ?_⟩
  rintro ⟨msg, h⟩
  exact PyErr.noConfusion (Except.error.inj h)

/-- C5 (amended): for a manifest whose dependency list carries no pip
package list, the routine aborts — by the descriptive `AssertionError` when
the loop runs to completion, or by `KeyError('pip')` at the first mapping
entry lacking a `pip` key — and in either case before issuing any install
command (an aborted call issues none). -/
theorem pip_yaml_no_pip_aborts (deps : List DepItem) (filename : String)
    (force : Bool) (h : ∀ it ∈ deps, pipListOf it = none) :
    ∃ e, pip_install_from_conda_yaml ⟨some deps⟩ filename force = .error e ∧
      (e = .keyError "pip" ∨
        e = .assertionError s!"Did not find pip in {filename}") := by
  rcases findPipConfig_no_pip deps none h with hok | herr
  · exact ⟨.assertionError s!"Did not find pip in {filename}",
      by simp [pip_install_from_conda_yaml, hok], Or.inr rfl⟩
  · exact ⟨.keyError "pip",
      by simp [pip_install_from_conda_yaml, herr], Or.inl rfl⟩

/-- Witness for C5's amended theorem at a concrete manifest with only plain
string dependencies. -/
theorem pip_yaml_no_pip_aborts_witness :
    ∃ e, pip_install_from_conda_yaml
        ⟨some [DepItem.str "python", DepItem.str "numpy"]⟩
        "env.yml" false = .error e ∧
      (e = .keyError "pip" ∨
        e = .assertionError s!"Did not find pip in env.yml") :=
  pip_yaml_no_pip_aborts [DepItem.str "python", DepItem.str "numpy"]
    "env.yml" false (by decide)

/-- C7: reading a line never breaks the loop on emptiness alone.  The loop
performs exactly one read before stopping iff the line strips to empty AND
`poll()` already reports an exit; and a line stripping to empty while the
process still runs is ordinary output — the loop goes on to drain the rest
exactly as it would have, that line contributing nothing to the echo. -/
theorem readLoop_stop_requires_empty_and_exited (l : String)
    (rest : List String) (t : Nat) (ea : Nat → Bool) (v : Bool) :
    ((readLoop (l :: rest) t ea v).2 = 1 ↔
      (pyStrip l = "" ∧ ea t = true)) ∧
    (pyStrip l = "" → ea t = false →
      readLoop (l :: rest) t ea v =
        ((readLoop rest (t + 1) ea v).1,
          (readLoop rest (t + 1) ea v).2 + 1)) := by
  by_cases hl : pyStrip l = ""
  · by_cases hea : ea t = true
    · constructor
      · simp [readLoop, hl, hea]
      · intro _ hfalse
        rw [hea] at hfalse
        exact absurd hfalse (by simp)
    · have hea' : ea t = false := by
        cases hcase : ea t with
        | false => rfl
        | true => exact absurd hcase hea
      have hcount := readLoop_count_pos rest (t + 1) ea v
      constructor
      · simp only [readLoop, hl, hea']
        simp
        omega
      · intro _ _
        simp [readLoop, hl, hea']
  · have hbeq : (pyStrip l == "") = false := beq_eq_false_iff_ne.mpr hl
    have hcount := readLoop_count_pos rest (t + 1) ea v
    constructor
    · simp only [readLoop, hbeq]
      simp [hl]
      omega
    · intro hfalse
      exact absurd hfalse hl

/-- Witness for C7 at a concrete read: an empty line at time 0 from a
process that has not exited is passed over and the following line is still
drained. -/
theorem readLoop_stop_requires_empty_and_exited_witness :
    ((readLoop ["", "x"] 0 (fun _ => false) true).2 = 1 ↔
      (pyStrip "" = "" ∧ (fun _ : Nat => false) 0 = true)) ∧
    (pyStrip "" = "" → (fun _ : Nat => false) 0 = false →
      readLoop ["", "x"] 0 (fun _ => false) true =
        ((readLoop ["x"] (0 + 1) (fun _ => false) true).1,
          (readLoop ["x"] (0 + 1) (fun _ => false) true).2 + 1)) :=
  readLoop_stop_requires_empty_and_exited "" ["x"] 0 (fun _ => false) true

/-- C6 counterexample: the claim that after `clone_repo` ALL contents of the
cloned `name/` directory are present in the working directory is false: a
hidden entry such as `.git` (present in every clone) is skipped by
`glob('name/*')` and then deleted by `rmtree`, so it ends up nowhere. -/
theorem clone_repo_all_contents_cex :
    repoDirOf "https://host/group/name.git" = "name" ∧
    ".git" ∉ clone_repo "https://host/group/name.git" [".git"] [] ∧
    clone_repo "https://host/group/name.git" [".git"] [] = [] := by
  decide

/-- C6 (amended): after `clone_repo`, the non-hidden contents of the cloned
`name/` directory (names not starting with a dot) are present directly in
the working directory, hidden contents are deleted along with the
directory, and the `name/` directory itself no longer exists. -/
theorem clone_repo_flattens_visible (repo_url : String)
    (repoEntries cwd : List String)
    (h : repoDirOf repo_url ∉ repoEntries) :
    (∀ e ∈ repoEntries, startsWithDot e = false →
      e ∈ clone_repo repo_url repoEntries cwd) ∧
    (∀ e ∈ repoEntries, startsWithDot e = true → e ∉ cwd →
      e ∉ clone_repo repo_url repoEntries cwd) ∧
    repoDirOf repo_url ∉ clone_repo repo_url repoEntries cwd := by
  refine ⟨?_, ?_, ?_⟩
  · intro e he hdot
    have hne : e ≠ repoDirOf repo_url := by
      intro heq
      exact h (heq ▸ he)
    simp only [clone_repo, List.mem_filter, List.mem_append, globStar]
    exact ⟨Or.inr ⟨he, by simp [hdot]⟩, bne_iff_ne.mpr hne⟩
  · intro e he hdot hcwd hmem
    simp only [clone_repo, List.mem_filter, List.mem_append,
      List.mem_singleton, globStar] at hmem
    obtain ⟨hin, hne⟩ := hmem
    rcases hin with (hc | hrd) | hglob
    · exact hcwd hc
    · rw [hrd] at hne
      simp at hne
    · have hgd := hglob.2
      rw [hdot] at hgd
      simp at hgd
  · intro hmem
    simp only [clone_repo, List.mem_filter] at hmem
    have := hmem.2
    simp at this

/-- Witness for C6's amended theorem at a concrete clone: `src` is moved up,
`.git` is destroyed, `name/` is gone. -/
theorem clone_repo_flattens_visible_witness :
    (∀ e ∈ [".git", "src"], startsWithDot e = false →
      e ∈ clone_repo "https://host/group/name.git" [".git", "src"] ["old"]) ∧
    (∀ e ∈ [".git", "src"], startsWithDot e = true → e ∉ ["old"] →
      e ∉ clone_repo "https://host/group/name.git" [".git", "src"] ["old"]) ∧
    repoDirOf "https://host/group/name.git" ∉
      clone_repo "https://host/group/name.git" [".git", "src"] ["old"] :=
  clone_repo_flattens_visible "https://host/group/name.git" [".git", "src"]
    ["old"] (by decide)

/-- C8: with `verbose=False` the runner still prints the `CMD:` header and,
on a non-zero exit code, still prints the error notice; comparing with
`verbose=True` shows the flag suppresses exactly the echoed stdout lines. -/
theorem runCmd_quiet_still_reports (cmd : String) (proc : ProcBehavior) :
    runCmd cmd proc false =
      (s!"CMD: {cmd}" ::
        (if proc.exitCode == 0 then [] else [errorNotice proc.exitCode]),
       proc.exitCode) ∧
    (runCmd cmd proc true).1 =
      s!"CMD: {cmd}" ::
        ((readLoop proc.outLines 0 proc.exitedAt true).1 ++
          (if proc.exitCode == 0 then [] else [errorNotice proc.exitCode])) := by
  constructor
  · simp [runCmd, readLoop_quiet]
  · rfl

/-- C9: `install_rdkit` hands its bootstrap command list to the runner
exactly when running in Colab with the conda site-packages directory absent
and `force=False`; in particular `force=True` runs nothing at all. -/
theorem install_rdkit_guard (ic ce f : Bool) :
    (f = true → install_rdkit ic ce f = []) ∧
    (install_rdkit ic ce f = rdkit_cmd_list ↔
      (ic = true ∧ ce = false ∧ f = false)) ∧
    (install_rdkit ic ce f = rdkit_cmd_list ∨ install_rdkit ic ce f = []) := by
  cases ic <;> cases ce <;> cases f <;>
    simp [install_rdkit, rdkit_cmd_list]

/-- Witness for C9 at `force=True` (in Colab, conda dir absent): nothing
runs. -/
theorem install_rdkit_guard_witness :
    (true = true → install_rdkit true false true = []) ∧
    (install_rdkit true false true = rdkit_cmd_list ↔
      (true = true ∧ false = false ∧ true = false)) ∧
    (install_rdkit true false true = rdkit_cmd_list ∨
      install_rdkit true false true = []) :=
  install_rdkit_guard true false true

/-- C10: when the dependency list carries two or more pip package lists
(every mapping entry having a `pip` key), only the last list is installed:
the issued commands are exactly one `pip install` per package of that last
list. -/
theorem pip_yaml_last_entry_wins (deps : List DepItem) (l : List String)
    (filename : String) (force : Bool)
    (hkeys : ∀ it ∈ deps, it ≠ DepItem.dict none)
    (hmany : 2 ≤ (deps.filterMap pipListOf).length)
    (hlast : (deps.filterMap pipListOf).getLast? = some l) :
    pip_install_from_conda_yaml ⟨some deps⟩ filename force =
      .ok (pip_install l force) ∧
    pip_install l force =
      l.map (fun p => s!"pip install {pipExtra force} {p}") := by
  refine ⟨?_, rfl⟩
  have hne : deps.filterMap pipListOf ≠ [] := by
    intro hnil
    rw [hnil] at hmany
    simp at hmany
  have heq := findPipConfig_eq deps none hkeys
  rw [foldl_keep_last _ none hne, hlast] at heq
  simp [pip_install_from_conda_yaml, heq]

/-- Witness for C10 at a manifest with two pip mapping entries: only the
second one's packages are installed. -/
theorem pip_yaml_last_entry_wins_witness :
    pip_install_from_conda_yaml
      ⟨some [DepItem.dict (some (PipVal.pkgs ["a"])),
             DepItem.dict (some (PipVal.pkgs ["b", "c"]))]⟩
      "env.yml" false = .ok (pip_install ["b", "c"] false) ∧
    pip_install ["b", "c"] false =
      ["b", "c"].map (fun p => s!"pip install {pipExtra false} {p}") :=
  pip_yaml_last_entry_wins
    [DepItem.dict (some (PipVal.pkgs ["a"])),
     DepItem.dict (some (PipVal.pkgs ["b", "c"]))]
    ["b", "c"] "env.yml" false (by decide) (by decide) (by decide)

end ColabUtils
